import Mathlib

/-!
Verification of the ciderflow-hq batch-lifecycle and authorization model.

This file is a shallow embedding of the parts of the repository the
specification speaks about:

* the batch production-stage state machine of `src/pages/Dashboard.tsx`
  (`stageTransitions`, `handleUpdateBatchStage`, `updateStageMutation`,
  and the stage-tab rendering);
* the create/edit handlers of `Dashboard.tsx`
  (`handleCreateBatch`, `handleAddFermentationLog`, `handleAddTastingNote`,
  `handleMarkPackagingComplete`, `updateBatchMutation`) together with the
  `upcoming-packaging` query;
* the SQL schema and row-level-security policies of the three migrations
  (`is_organization_member`, the organization SELECT/DELETE policies, the
  CHECK constraints on `batches`, `tasting_notes`, `packaging_schedules`,
  and the `set_batches_updated_at` trigger);
* the `canDeleteOrganization` gate of `src/pages/Settings.tsx`.

Modelling conventions: UUIDs are opaque identifiers, modelled as `Nat`;
SQL dates and timestamps are modelled as `Nat` ordered as the store orders
them; a JavaScript numeric form field of TypeScript type `number | ''` is
modelled as `Option ℚ`, where `none` stands for the empty field (exactly
the values failing the code's `typeof v === 'number' && Number.isFinite(v)`
guard) and `some q` for a finite number; the remote table store is an
explicit list of rows, and a filtered update is a `map` over that list.
-/

namespace Ciderflow

/-- Production stage of a batch: the `BatchStage` union type of
`Dashboard.tsx` and the `current_stage` CHECK constraint of the
`batches` table. -/
inductive BatchStage
  | pressing
  | fermenting
  | aging
  | bottled
deriving DecidableEq, Repr

/-- One entry of the `stageTransitions` record of `Dashboard.tsx`:
the single allowed next stage together with the button label. -/
structure TransitionInfo where
  nextStage : BatchStage
  label : String
deriving DecidableEq, Repr

/-- The fixed transition table `stageTransitions` of `Dashboard.tsx`
(first `Dashboard` variant, lines 424-429): each non-terminal stage maps
to exactly one successor, `bottled` maps to `null`. -/
def stageTransitions : BatchStage → Option TransitionInfo
  | .pressing => some ⟨.fermenting, "Move to Fermenting →"⟩
  | .fermenting => some ⟨.aging, "Move to Aging →"⟩
  | .aging => some ⟨.bottled, "Move to Bottled →"⟩
  | .bottled => none

/-- Position of a stage in the production order; used to express that the
transition table never skips a stage. -/
def stageIdx : BatchStage → Nat
  | .pressing => 0
  | .fermenting => 1
  | .aging => 2
  | .bottled => 3

/-- A row of the `batches` table (first migration): ids are opaque `Nat`,
`volume` is the `DECIMAL(10,2)` column as a rational, `start_date` is the
raw date string the client sends, and the two timestamp columns are `Nat`. -/
structure BatchRow where
  id : Nat
  organization_id : Nat
  name : String
  variety : String
  volume : ℚ
  current_stage : BatchStage
  start_date : String
  created_by : Nat
  created_at : Nat
  updated_at : Nat
deriving DecidableEq, Repr

/-- The store-side effect of `updateStageMutation` of `Dashboard.tsx`
(lines 513-527): `update({ current_stage: newStage }).eq('id', batchId)
.eq('organization_id', organizationId)` — a conditional update touching
exactly the rows matching both the batch id and the claimed organization.
The `set_batches_updated_at` trigger of the first migration stamps
`updated_at` with the current time on every updated row. -/
def updateStageInStore (db : List BatchRow) (batchId orgId : Nat)
    (newStage : BatchStage) (now : Nat) : List BatchRow :=
  db.map fun row =>
    if row.id = batchId ∧ row.organization_id = orgId then
      { row with current_stage := newStage, updated_at := now }
    else
      row

/-- The stage-advance operation as the UI actually invokes it
(`Dashboard.tsx` lines 1773-1790): the stage tab looks up
`stageTransitions[selectedBatch.current_stage]`; when the lookup is `null`
nothing is rendered but a completion message and no write happens, and
otherwise the advance button calls
`handleUpdateBatchStage(selectedBatch.id, transition.nextStage)`, which
feeds `updateStageMutation`. No stage argument is exposed to the caller:
the written stage is derived from `b.current_stage` through the table. -/
def advanceBatchStage (db : List BatchRow) (b : BatchRow) (orgId : Nat)
    (now : Nat) : List BatchRow :=
  match stageTransitions b.current_stage with
  | none => db
  | some t => updateStageInStore db b.id orgId t.nextStage now

/-- Effect of one stage-advance on the batch's own stage: the successor
from `stageTransitions` when one exists, the unchanged stage otherwise. -/
def advanceStage (s : BatchStage) : BatchStage :=
  match stageTransitions s with
  | some t => t.nextStage
  | none => s

/-- What the stage tab of `Dashboard.tsx` renders for a given current
stage: the green "This batch is complete!" message for a stage without a
transition, or the advance button for the table successor. -/
inductive StageTabView
  | completeMessage (text : String)
  | advanceButton (target : BatchStage) (label : String)
deriving DecidableEq, Repr

/-- The stage-tab rendering decision of `Dashboard.tsx` (lines 1773-1790). -/
def stageTabView (current : BatchStage) : StageTabView :=
  match stageTransitions current with
  | none => .completeMessage "This batch is complete!"
  | some t => .advanceButton t.nextStage t.label

/-- Role column of the `organization_members` table: the CHECK constraint
allows exactly `owner`, `admin`, `member`. -/
inductive MemberRole
  | owner
  | admin
  | member
deriving DecidableEq, Repr

/-- A row of the `organization_members` table (first migration). -/
structure OrganizationMemberRow where
  id : Nat
  organization_id : Nat
  user_id : Nat
  role : MemberRole
  created_at : Nat
deriving DecidableEq, Repr

/-- The SQL function `public.is_organization_member(org_id, user_id)` of
the second migration: `EXISTS (SELECT 1 FROM organization_members WHERE
organization_id = org_id AND organization_members.user_id = user_id)`.
In a `LANGUAGE sql` function an unqualified name that collides with a
column of the query resolves to the column, so the right-hand `user_id`
is `organization_members.user_id` itself and the conjunct compares the
NOT NULL column with itself — a tautology. The function therefore tests
only that the organization has some member row and ignores its `user_id`
argument; the unused Lean binder mirrors the ignored SQL parameter, and
the tautological conjunct is kept as written. -/
def is_organization_member (members : List OrganizationMemberRow)
    (orgId _uid : Nat) : Bool :=
  members.any fun r => r.organization_id == orgId && r.user_id == r.user_id

/-- A row of the `organizations` table (first migration plus the
`team_size` column added by the third migration). -/
structure OrganizationRow where
  id : Nat
  name : String
  owner_id : Nat
  team_size : String
  created_at : Nat
  updated_at : Nat
deriving DecidableEq, Repr

/-- The RLS DELETE policy "Only owners can delete organizations"
(`src/unnamed/part_004`): `USING (auth.uid() = owner_id)`. -/
def orgDeletePolicyAllows (uid : Nat) (org : OrganizationRow) : Bool :=
  uid == org.owner_id

/-- Union of the two permissive SELECT policies on `organizations`: the
membership policy of `src/unnamed/part_002` and the compensating
"Owners can view their own organizations" policy of `src/unnamed/part_003`. -/
def orgSelectPolicyAllows (members : List OrganizationMemberRow)
    (uid : Nat) (org : OrganizationRow) : Bool :=
  is_organization_member members org.id uid || uid == org.owner_id

/-- The RLS UPDATE policy on `batches` recreated in `src/unnamed/part_002`:
membership in the batch's organization is the only requirement. -/
def batchesUpdatePolicyAllows (members : List OrganizationMemberRow)
    (uid : Nat) (b : BatchRow) : Bool :=
  is_organization_member members b.organization_id uid

/-- The `canDeleteOrganization` gate of `Settings.tsx` (line 167):
`memberRole === 'owner' || memberRole === 'admin'`. -/
def canDeleteOrganization (memberRole : MemberRole) : Bool :=
  memberRole == .owner || memberRole == .admin

/-- The organization row inserted by step 1 of `Onboarding.handleSubmit`
(`src/unnamed/part_001`): `insert({ name, owner_id: user.id, team_size })`
with a store-generated id and timestamps. -/
def onboardingInsertOrganization (uid newOrgId : Nat)
    (name size : String) (now : Nat) : OrganizationRow :=
  { id := newOrgId, name := name, owner_id := uid, team_size := size,
    created_at := now, updated_at := now }

/-- The `BatchFormState` of `Dashboard.tsx`: `volume : number | ''` is an
`Option ℚ`, `none` for the empty field or a non-finite value. -/
structure BatchFormState where
  name : String
  variety : String
  volume : Option ℚ
  start_date : String
deriving DecidableEq, Repr

/-- The insert payload `createBatchMutation` sends to the `batches` table. -/
structure BatchInsert where
  name : String
  variety : String
  volume : ℚ
  organization_id : Nat
  current_stage : BatchStage
  start_date : String
  created_by : Nat
deriving DecidableEq, Repr

/-- The handler `handleCreateBatch` of the first `Dashboard` variant (lines 824-854):
after checking that the user and organization context exist, the only
validation is `typeof newBatch.volume !== 'number' ||
!Number.isFinite(newBatch.volume)`; any finite number — negative or zero
included — reaches `createBatchMutation.mutate`, with `current_stage`
fixed to `pressing`. `none` is the rejected (no insert sent) outcome. -/
def handleCreateBatch (userId organizationId : Option Nat)
    (form : BatchFormState) : Option BatchInsert :=
  match userId, organizationId with
  | some uid, some orgId =>
    match form.volume with
    | some v =>
      some { name := form.name, variety := form.variety, volume := v,
             organization_id := orgId, current_stage := .pressing,
             start_date := form.start_date, created_by := uid }
    | none => none
  | _, _ => none

/-- Acceptance of a rational by the `volume DECIMAL(10,2) NOT NULL` column
of the `batches` table: exactly representable with two fractional digits
and fewer than ten digits in total. The column carries no sign or
positivity CHECK. -/
def batchesVolumeColumnAccepts (v : ℚ) : Bool :=
  (v * 100).den == 1 && decide (|v| < 100000000)

/-- The `batchSchema` volume rule of the second `Dashboard` variant
(line 2451): `z.number().positive(...).max(1000000, ...)`. -/
def batchSchemaAcceptsVolume (v : ℚ) : Bool :=
  decide (0 < v) && decide (v ≤ 1000000)

/-- JavaScript falsiness of a nullable number, as used by the guards of
`handleAddFermentationLog`: `null` and `0` are falsy. -/
def jsFalsyNum : Option ℚ → Bool
  | none => true
  | some v => v == 0

/-- JavaScript falsiness of a nullable string: `null` and the empty
string are falsy. -/
def jsFalsyStr : Option String → Bool
  | none => true
  | some s => s == ""

/-- Model of JavaScript's `String.prototype.trim`: drop whitespace from
both ends. Defined on the character list so that concrete instances
evaluate inside proofs. -/
def jsTrim (s : String) : String :=
  String.mk
    ((s.data.dropWhile Char.isWhitespace).reverse.dropWhile
      Char.isWhitespace).reverse

/-- The helper `parseOptionalNumber` of `Dashboard.tsx` (lines 227-228):
`typeof value === 'number' && Number.isFinite(value) ? value : null`,
under the `Option ℚ` encoding of `number | ''`. -/
def parseOptionalNumber (value : Option ℚ) : Option ℚ :=
  match value with
  | some v => some v
  | none => none

/-- The `FermentationFormState` of `Dashboard.tsx`. -/
structure FermentationFormState where
  recorded_at : String
  temperature : Option ℚ
  specific_gravity : Option ℚ
  ph : Option ℚ
  notes : String
deriving DecidableEq, Repr

/-- The insert payload of `createFermentationLogMutation`. -/
structure FermentationLogInsert where
  batch_id : Nat
  recorded_at : String
  temperature : Option ℚ
  specific_gravity : Option ℚ
  ph : Option ℚ
  notes : Option String
  created_by : Nat
deriving DecidableEq, Repr

/-- The handler `handleAddFermentationLog` of `Dashboard.tsx` (lines 856-888): builds
the payload with `parseOptionalNumber` on the three metrics and
`notes ? notes.trim() : null`, then rejects (sends nothing) when
`!payload.temperature && !payload.specific_gravity && !payload.ph &&
!payload.notes` — JavaScript falsiness, so a metric equal to `0` counts
as absent. -/
def handleAddFermentationLog (userId selectedBatchId : Option Nat)
    (f : FermentationFormState) : Option FermentationLogInsert :=
  match userId, selectedBatchId with
  | some uid, some bid =>
    let payload : FermentationLogInsert :=
      { batch_id := bid, recorded_at := f.recorded_at,
        temperature := parseOptionalNumber f.temperature,
        specific_gravity := parseOptionalNumber f.specific_gravity,
        ph := parseOptionalNumber f.ph,
        notes := if f.notes == "" then none else some (jsTrim f.notes),
        created_by := uid }
    if jsFalsyNum payload.temperature && jsFalsyNum payload.specific_gravity
        && jsFalsyNum payload.ph && jsFalsyStr payload.notes then
      none
    else
      some payload
  | _, _ => none

/-- The `TastingFormState` of `Dashboard.tsx`: the three sensory scores
have type `number | ''`. -/
structure TastingFormState where
  recorded_at : String
  sweetness : Option ℚ
  acidity : Option ℚ
  body : Option ℚ
  aroma : String
  flavor : String
  finish : String
  notes : String
deriving DecidableEq, Repr

/-- The insert payload of `createTastingNoteMutation`. -/
structure TastingNoteInsert where
  batch_id : Nat
  recorded_at : String
  sweetness : Option ℚ
  acidity : Option ℚ
  body : Option ℚ
  aroma : Option String
  flavor : Option String
  finish : Option String
  notes : Option String
  created_by : Nat
deriving DecidableEq, Repr

/-- The text-field translation `field ? field.trim() : null` used for
`aroma`, `flavor`, `finish` and `notes` in `handleAddTastingNote`. -/
def trimToOption (s : String) : Option String :=
  if s == "" then none else some (jsTrim s)

/-- The handler `handleAddTastingNote` of `Dashboard.tsx` (lines 890-930): the scores
are forwarded as `typeof x === 'number' ? x : null` with no range check;
the only gate is `!payload.aroma && !payload.flavor && !payload.finish &&
!payload.notes`, which looks at the four text fields alone. -/
def handleAddTastingNote (userId selectedBatchId : Option Nat)
    (f : TastingFormState) : Option TastingNoteInsert :=
  match userId, selectedBatchId with
  | some uid, some bid =>
    let payload : TastingNoteInsert :=
      { batch_id := bid, recorded_at := f.recorded_at,
        sweetness := f.sweetness, acidity := f.acidity, body := f.body,
        aroma := trimToOption f.aroma, flavor := trimToOption f.flavor,
        finish := trimToOption f.finish, notes := trimToOption f.notes,
        created_by := uid }
    if jsFalsyStr payload.aroma && jsFalsyStr payload.flavor
        && jsFalsyStr payload.finish && jsFalsyStr payload.notes then
      none
    else
      some payload
  | _, _ => none

/-- Acceptance of a nullable score by the `INTEGER CHECK (x BETWEEN 1
AND 5)` columns of the `tasting_notes` table (second migration): `NULL`
passes, a number passes when it is an integer between 1 and 5. -/
def tastingScoreColumnAccepts (score : Option ℚ) : Bool :=
  match score with
  | none => true
  | some s => s.den == 1 && decide ((1 : ℚ) ≤ s) && decide (s ≤ (5 : ℚ))

/-- The `format` CHECK constraint of the `packaging_schedules` table. -/
inductive PackagingFormat
  | bottle
  | can
  | keg
  | bagInBox
  | growler
  | other
deriving DecidableEq, Repr

/-- A row of the `packaging_schedules` table (second migration):
`target_date DATE` and `completed_at TIMESTAMP` are `Nat` ordered as the
store orders them, `completed_at = none` is the pending state. -/
structure PackagingScheduleRow where
  id : Nat
  batch_id : Nat
  target_date : Nat
  format : PackagingFormat
  quantity : Option Int
  notes : Option String
  completed_at : Option Nat
  created_by : Option Nat
  created_at : Nat
deriving DecidableEq, Repr

/-- The inner join `batches!inner(name, organization_id)` filtered by
`eq('batches.organization_id', organizationId)` of the
`upcoming-packaging` query: the schedule's batch must exist and belong to
the requested organization. -/
def scheduleInOrg (batches : List BatchRow) (s : PackagingScheduleRow)
    (orgId : Nat) : Bool :=
  batches.any fun b => b.id == s.batch_id && b.organization_id == orgId

/-- Stable insertion of a schedule into a list sorted by ascending
`target_date`; existing rows with the same date stay in front. -/
def insertByTargetDate (s : PackagingScheduleRow) :
    List PackagingScheduleRow → List PackagingScheduleRow
  | [] => [s]
  | t :: ts =>
    if t.target_date ≤ s.target_date then t :: insertByTargetDate s ts
    else s :: t :: ts

/-- Stable sort by ascending `target_date`, modelling
`order('target_date', { ascending: true })`. -/
def sortByTargetDate : List PackagingScheduleRow → List PackagingScheduleRow
  | [] => []
  | s :: ss => insertByTargetDate s (sortByTargetDate ss)

/-- The `upcoming-packaging` query of `Dashboard.tsx` (lines 326-346):
select schedules whose batch is in the organization, keep those with
`completed_at` null, order by ascending target date, and `limit(5)`. -/
def upcomingPackagingQuery (batches : List BatchRow)
    (schedules : List PackagingScheduleRow) (orgId : Nat) :
    List PackagingScheduleRow :=
  (sortByTargetDate (schedules.filter fun s =>
    s.completed_at.isNone && scheduleInOrg batches s orgId)).take 5

/-- The handler `handleMarkPackagingComplete` of `Dashboard.tsx` (lines 970-985)
through `updatePackagingScheduleMutation`: `update({ completed_at: new
Date().toISOString() }).eq('id', scheduleId)` — every row matching the
schedule id receives the current timestamp. -/
def handleMarkPackagingComplete (schedules : List PackagingScheduleRow)
    (scheduleId : Nat) (now : Nat) : List PackagingScheduleRow :=
  schedules.map fun s =>
    if s.id = scheduleId then { s with completed_at := some now } else s

/-- What the packaging-roadmap badge of `Dashboard.tsx` (lines 2268-2285)
renders: `completed = Boolean(schedule.completed_at)` selects between
`Completed <date>` — showing the completion timestamp — and `Scheduled`. -/
inductive PackagingBadge
  | completedAt (t : Nat)
  | scheduled
deriving DecidableEq, Repr

/-- The badge rendering decision for one packaging schedule row. -/
def packagingBadge (s : PackagingScheduleRow) : PackagingBadge :=
  match s.completed_at with
  | some t => .completedAt t
  | none => .scheduled

/-- The update payload of `updateBatchMutation` (`Dashboard.tsx` lines
471-487), typed `Pick<TablesUpdate<'batches'>, 'name' | 'variety' |
'volume' | 'start_date'>`; the edit dialog always sends all four. -/
structure BatchEditUpdates where
  name : String
  variety : String
  volume : ℚ
  start_date : String
deriving DecidableEq, Repr

/-- The store-side effect of the edit payload on one matched row: the
four client columns are replaced, and the `set_batches_updated_at`
trigger of the first migration stamps `updated_at` with the current
time. -/
def applyBatchEditRow (row : BatchRow) (u : BatchEditUpdates)
    (now : Nat) : BatchRow :=
  { row with
      name := u.name
      variety := u.variety
      volume := u.volume
      start_date := u.start_date
      updated_at := now }

/-- The mutation `updateBatchMutation` at the store: `update(updates).eq('id',
batchId).eq('organization_id', organizationId)`. -/
def updateBatchInStore (db : List BatchRow) (batchId orgId : Nat)
    (u : BatchEditUpdates) (now : Nat) : List BatchRow :=
  db.map fun row =>
    if row.id = batchId ∧ row.organization_id = orgId then
      applyBatchEditRow row u now
    else
      row

/-- The guard of `deleteOrganization` in `Settings.tsx` (lines 378-406):
the literal confirmation text must be `DELETE`, the organization context
must exist, and `canDeleteOrganization` must hold, otherwise no delete
request is sent. -/
def deleteOrganizationSendsRequest (confirmation : String)
    (organizationId : Option Nat) (memberRole : MemberRole) : Bool :=
  confirmation == "DELETE" && organizationId.isSome
    && canDeleteOrganization memberRole

/-- Sample batch row used to evaluate the theorems on concrete data. -/
def demoBatchPressing : BatchRow :=
  { id := 1, organization_id := 1, name := "Autumn", variety := "Granny",
    volume := 100, current_stage := .pressing, start_date := "2025-01-01",
    created_by := 7, created_at := 0, updated_at := 0 }

/-- Sample bottled batch row. -/
def demoBatchBottled : BatchRow :=
  { id := 2, organization_id := 1, name := "Summer", variety := "Cox",
    volume := 50, current_stage := .bottled, start_date := "2025-01-01",
    created_by := 7, created_at := 0, updated_at := 0 }

/-- Sample membership row: user 42 is a `member` of organization 1. -/
def demoMemberRow : OrganizationMemberRow :=
  { id := 1, organization_id := 1, user_id := 42, role := .member,
    created_at := 0 }

/-- Sample membership table. -/
def demoMembers : List OrganizationMemberRow := [demoMemberRow]

/-- Sample organization owned by user 99. -/
def demoOrg : OrganizationRow :=
  { id := 1, name := "Acme Cidery", owner_id := 99, team_size := "small",
    created_at := 0, updated_at := 0 }

/-- Sample pending packaging schedule for batch 1 with target date `i`. -/
def demoSchedule (i : Nat) : PackagingScheduleRow :=
  { id := i, batch_id := 1, target_date := i, format := .bottle,
    quantity := none, notes := none, completed_at := none,
    created_by := some 7, created_at := 0 }

/-- Six pending schedules, one more than the query's `limit(5)`. -/
def demoSchedules : List PackagingScheduleRow :=
  [demoSchedule 1, demoSchedule 2, demoSchedule 3, demoSchedule 4,
   demoSchedule 5, demoSchedule 6]

/-- Sample batches table holding the batch the schedules point at. -/
def demoBatches : List BatchRow := [demoBatchPressing]

/-- Sample edit payload carrying the same four values the sample batch
already has, so an edit with it can only change other columns. -/
def demoEdit : BatchEditUpdates :=
  { name := "Autumn", variety := "Granny", volume := 100,
    start_date := "2025-01-01" }

/-- Sample tasting form with an out-of-range sweetness score. -/
def demoTastingForm : TastingFormState :=
  { recorded_at := "2025-01-02", sweetness := some 7, acidity := some 3,
    body := some 3, aroma := "bright apple", flavor := "", finish := "",
    notes := "" }

/-- The payload `handleAddTastingNote` builds from `demoTastingForm`. -/
def demoTastingInsert : TastingNoteInsert :=
  { batch_id := 1, recorded_at := "2025-01-02", sweetness := some 7,
    acidity := some 3, body := some 3, aroma := some "bright apple",
    flavor := none, finish := none, notes := none, created_by := 7 }

/-! ## Helper lemmas -/

/-- Membership is preserved by the stable insertion step of the
target-date sort. -/
theorem mem_insertByTargetDate (x s : PackagingScheduleRow)
    (l : List PackagingScheduleRow) :
    x ∈ insertByTargetDate s l ↔ x = s ∨ x ∈ l := by
  induction l with
  | nil => simp [insertByTargetDate]
  | cons t ts ih =>
    by_cases h : t.target_date ≤ s.target_date
    · simp only [insertByTargetDate, if_pos h, List.mem_cons, ih]
      tauto
    · simp only [insertByTargetDate, if_neg h, List.mem_cons]

/-- Sorting by target date neither adds nor removes rows. -/
theorem mem_sortByTargetDate (x : PackagingScheduleRow)
    (l : List PackagingScheduleRow) :
    x ∈ sortByTargetDate l ↔ x ∈ l := by
  induction l with
  | nil => simp [sortByTargetDate]
  | cons s ss ih =>
    simp [sortByTargetDate, mem_insertByTargetDate, ih]

/-- The insertion step grows the length by one. -/
theorem length_insertByTargetDate (s : PackagingScheduleRow)
    (l : List PackagingScheduleRow) :
    (insertByTargetDate s l).length = l.length + 1 := by
  induction l with
  | nil => rfl
  | cons t ts ih =>
    by_cases h : t.target_date ≤ s.target_date
    · simp [insertByTargetDate, h, ih]
    · simp [insertByTargetDate, h]

/-- Sorting by target date preserves the length. -/
theorem length_sortByTargetDate (l : List PackagingScheduleRow) :
    (sortByTargetDate l).length = l.length := by
  induction l with
  | nil => rfl
  | cons s ss ih =>
    simp [sortByTargetDate, length_insertByTargetDate, ih]

/-- The insertion step is a permutation of consing. -/
theorem perm_insertByTargetDate (s : PackagingScheduleRow)
    (l : List PackagingScheduleRow) :
    List.Perm (insertByTargetDate s l) (s :: l) := by
  induction l with
  | nil => exact List.Perm.refl _
  | cons t ts ih =>
    by_cases h : t.target_date ≤ s.target_date
    · rw [insertByTargetDate, if_pos h]
      exact (List.Perm.cons t ih).trans (List.Perm.swap s t ts)
    · rw [insertByTargetDate, if_neg h]

/-- The sort is a permutation of its input. -/
theorem perm_sortByTargetDate (l : List PackagingScheduleRow) :
    List.Perm (sortByTargetDate l) l := by
  induction l with
  | nil => exact List.Perm.refl _
  | cons s ss ih =>
    exact (perm_insertByTargetDate s (sortByTargetDate ss)).trans
      (List.Perm.cons s ih)

/-- The insertion step keeps the list ascending in target date. -/
theorem pairwise_insertByTargetDate (s : PackagingScheduleRow)
    (l : List PackagingScheduleRow)
    (h : List.Pairwise (fun a b => a.target_date ≤ b.target_date) l) :
    List.Pairwise (fun a b => a.target_date ≤ b.target_date)
      (insertByTargetDate s l) := by
  induction l with
  | nil => simp [insertByTargetDate]
  | cons t ts ih =>
    rw [List.pairwise_cons] at h
    by_cases hc : t.target_date ≤ s.target_date
    · rw [insertByTargetDate, if_pos hc, List.pairwise_cons]
      refine ⟨?_, ih h.2⟩
      intro b hb
      rw [mem_insertByTargetDate] at hb
      rcases hb with rfl | hb
      · exact hc
      · exact h.1 b hb
    · rw [insertByTargetDate, if_neg hc, List.pairwise_cons]
      have hs : s.target_date ≤ t.target_date := Nat.le_of_not_le hc
      refine ⟨?_, List.pairwise_cons.mpr h⟩
      intro b hb
      rcases List.mem_cons.mp hb with rfl | hb
      · exact hs
      · exact Nat.le_trans hs (h.1 b hb)

/-- The sort output is ascending in target date. -/
theorem pairwise_sortByTargetDate (l : List PackagingScheduleRow) :
    List.Pairwise (fun a b => a.target_date ≤ b.target_date)
      (sortByTargetDate l) := by
  induction l with
  | nil => simp [sortByTargetDate]
  | cons s ss ih =>
    exact pairwise_insertByTargetDate s (sortByTargetDate ss) ih

/-- In a list ascending by target date, a member such that at most `n`
entries carry a target date at or before its own sits among the first
`n` entries. -/
theorem mem_take_of_sorted_count_le
    (n : Nat) (l : List PackagingScheduleRow) (s : PackagingScheduleRow)
    (hsort : List.Pairwise (fun a b => a.target_date ≤ b.target_date) l)
    (hs : s ∈ l)
    (hcount :
      (l.filter fun x => x.target_date ≤ s.target_date).length ≤ n) :
    s ∈ l.take n := by
  induction l generalizing n with
  | nil => cases hs
  | cons a t ih =>
    rw [List.pairwise_cons] at hsort
    have hpa : a.target_date ≤ s.target_date := by
      rcases List.mem_cons.mp hs with rfl | hmem
      · exact Nat.le_refl _
      · exact hsort.1 s hmem
    have hdec : (decide (a.target_date ≤ s.target_date)) = true :=
      decide_eq_true hpa
    simp only [List.filter_cons, hdec, if_true, List.length_cons] at hcount
    obtain ⟨m, rfl⟩ : ∃ m, n = m + 1 := ⟨n - 1, by omega⟩
    rw [List.take_succ_cons]
    rcases List.mem_cons.mp hs with rfl | hmem
    · exact List.mem_cons_self _ _
    · exact List.mem_cons_of_mem a (ih m hsort.2 hmem (by omega))

/-! ## Claim theorems -/

/-- C1: every invocation of the stage-advance operation writes exactly the
single allowed next stage looked up from `batch.current_stage` in the
fixed `stageTransitions` table; the table moves every non-terminal stage
exactly one position forward, so no stage can be skipped, and the
operation exposes no stage argument — any row the operation changed holds
the table successor of the batch's current stage. -/
theorem advance_writes_only_table_successor :
    (∀ (s : BatchStage) (t : TransitionInfo),
      stageTransitions s = some t → stageIdx t.nextStage = stageIdx s + 1) ∧
    ∀ (db : List BatchRow) (b : BatchRow) (orgId now : Nat)
      (row : BatchRow),
      row ∈ advanceBatchStage db b orgId now → row ∉ db →
      ∃ old, old ∈ db ∧ old.id = b.id ∧ old.organization_id = orgId ∧
        ∃ t, stageTransitions b.current_stage = some t ∧
          row.current_stage = t.nextStage := by
  constructor
  · intro s t h
    cases s <;> simp only [stageTransitions, Option.some.injEq] at h <;>
      first
        | (subst h; rfl)
        | exact absurd h (by simp)
  · intro db b orgId now row hmem hnot
    unfold advanceBatchStage at hmem
    cases h : stageTransitions b.current_stage with
    | none =>
      rw [h] at hmem
      exact absurd hmem hnot
    | some t =>
      rw [h] at hmem
      unfold updateStageInStore at hmem
      rw [List.mem_map] at hmem
      obtain ⟨old, hold, heq⟩ := hmem
      by_cases hc : old.id = b.id ∧ old.organization_id = orgId
      · rw [if_pos hc] at heq
        subst heq
        exact ⟨old, hold, hc.1, hc.2, t, rfl, rfl⟩
      · rw [if_neg hc] at heq
        subst heq
        exact absurd hold hnot

/-- Concrete run of the C1 theorem: advancing the sample pressing batch
changes its row to the table successor `fermenting`. -/
theorem advance_writes_only_table_successor_witness :
    ∃ old, old ∈ [demoBatchPressing] ∧ old.id = 1 ∧
      old.organization_id = 1 ∧
      ∃ t, stageTransitions BatchStage.pressing = some t ∧
        ({ demoBatchPressing with
            current_stage := .fermenting
            updated_at := 9 } : BatchRow).current_stage = t.nextStage := by
  have h := advance_writes_only_table_successor.2 [demoBatchPressing]
    demoBatchPressing 1 9
    { demoBatchPressing with current_stage := .fermenting, updated_at := 9 }
    (by decide) (by decide)
  exact h

/-- C3: repeated advance from `pressing` visits exactly
pressing, fermenting, aging, bottled — three successful advances — and
every further advance is a no-op on the store that the stage tab renders
as the completion message, not as an error. -/
theorem advance_visits_fixed_sequence :
    advanceStage .pressing = .fermenting ∧
    advanceStage .fermenting = .aging ∧
    advanceStage .aging = .bottled ∧
    (∀ n : Nat, advanceStage^[n + 3] .pressing = .bottled) ∧
    (∀ (db : List BatchRow) (b : BatchRow) (orgId now : Nat),
      b.current_stage = .bottled → advanceBatchStage db b orgId now = db) ∧
    (∀ (b : BatchRow) (now : Nat),
      (advanceBatchStage [b] b b.organization_id now).map
        (fun r => r.current_stage) = [advanceStage b.current_stage]) ∧
    stageTabView .bottled = .completeMessage "This batch is complete!" := by
  refine ⟨rfl, rfl, rfl, ?_, ?_, ?_, rfl⟩
  · intro n
    rw [Function.iterate_add_apply]
    have h3 : advanceStage^[3] .pressing = .bottled := rfl
    rw [h3]
    exact Function.iterate_fixed rfl n
  · intro db b orgId now h
    unfold advanceBatchStage
    rw [h]
    rfl
  · intro b now
    unfold advanceBatchStage advanceStage
    cases h : stageTransitions b.current_stage with
    | none => simp
    | some t => simp [updateStageInStore]

/-- Concrete run of the C3 theorem: advancing the sample bottled batch
leaves the store unchanged. -/
theorem advance_visits_fixed_sequence_witness :
    advanceBatchStage [demoBatchBottled] demoBatchBottled 1 9
      = [demoBatchBottled] := by
  exact advance_visits_fixed_sequence.2.2.2.2.1 [demoBatchBottled]
    demoBatchBottled 1 9 rfl

/-- C4: the membership predicate of the second migration does not depend
on its user argument, refuting the claimed iff. The unqualified
right-hand `user_id` in the SQL body resolves to the
`organization_members.user_id` column, so the conjunct is a tautology
and the function answers true as soon as the organization has any member
row: with the membership table holding only a row for user 42 in
organization 1, the predicate answers true for user 99 as well, although
no (1, 99) row exists. The function's own name, signature and the
policies built on it ("Users can view organizations they are members
of") document the intent the claim states, so the code is the slip. -/
theorem is_organization_member_ignores_user_argument :
    is_organization_member demoMembers 1 99 = true ∧
    (∀ r ∈ demoMembers, ¬(r.organization_id = 1 ∧ r.user_id = 99)) ∧
    is_organization_member demoMembers 1 42 = true := by
  refine ⟨by decide, by decide, by decide⟩

/-- C5: a `member` passes the batch-update policy (membership gates stage
updates) but fails both deletion gates for the organization — the
`canDeleteOrganization` check of `Settings.tsx` and, whenever the acting
user is not the declared owner, the RLS DELETE policy — while an `owner`
passes `canDeleteOrganization`, and the user whose id is `owner_id`
passes the RLS DELETE policy. -/
theorem member_updates_stage_only_owner_deletes_org :
    ∀ (members : List OrganizationMemberRow) (uid : Nat)
      (org : OrganizationRow) (b : BatchRow) (r : OrganizationMemberRow),
      r ∈ members → r.organization_id = b.organization_id →
      r.user_id = uid →
      batchesUpdatePolicyAllows members uid b = true ∧
      (r.role = .member → canDeleteOrganization r.role = false) ∧
      (uid ≠ org.owner_id → orgDeletePolicyAllows uid org = false) ∧
      (r.role = .owner → canDeleteOrganization r.role = true) ∧
      (uid = org.owner_id → orgDeletePolicyAllows uid org = true) := by
  intro members uid org b r hr horg huid
  refine ⟨?_, ?_, ?_, ?_, ?_⟩
  · unfold batchesUpdatePolicyAllows is_organization_member
    rw [List.any_eq_true]
    exact ⟨r, hr, by simp [horg, huid]⟩
  · intro h
    rw [h]
    rfl
  · intro h
    simp [orgDeletePolicyAllows, h]
  · intro h
    rw [h]
    rfl
  · intro h
    simp [orgDeletePolicyAllows, h]

/-- Concrete run of the C5 theorem: user 42 holds the `member` role in
organization 1 and can pass the batch-update policy for the sample batch,
but passes neither organization-deletion gate for the sample
organization owned by user 99. -/
theorem member_updates_stage_only_owner_deletes_org_witness :
    batchesUpdatePolicyAllows demoMembers 42 demoBatchPressing = true ∧
    canDeleteOrganization MemberRole.member = false ∧
    orgDeletePolicyAllows 42 demoOrg = false := by
  have h := member_updates_stage_only_owner_deletes_org demoMembers 42
    demoOrg demoBatchPressing demoMemberRow (by decide) (by decide)
    (by decide)
  exact ⟨h.1, h.2.1 rfl, h.2.2.1 (by decide)⟩

/-- C7: the organization row inserted by onboarding step 1 is readable by
its declared owner under the permissive SELECT policies even when no
membership row for that user exists — the compensating
"Owners can view their own organizations" policy fires on
`auth.uid() = owner_id` alone. -/
theorem owner_reads_orphan_organization :
    ∀ (members : List OrganizationMemberRow) (uid newOrgId : Nat)
      (name size : String) (now : Nat),
      (∀ r ∈ members, ¬(r.organization_id = newOrgId ∧ r.user_id = uid)) →
      orgSelectPolicyAllows members uid
        (onboardingInsertOrganization uid newOrgId name size now)
        = true := by
  intro members uid newOrgId name size now _h
  simp [orgSelectPolicyAllows, onboardingInsertOrganization]

/-- Concrete run of the C7 theorem: user 5 created organization 3 and the
membership insert failed, leaving the membership table empty; the owner
can still read the orphan organization. -/
theorem owner_reads_orphan_organization_witness :
    orgSelectPolicyAllows [] 5
      (onboardingInsertOrganization 5 3 "Acme Cidery" "small" 0)
      = true := by
  exact owner_reads_orphan_organization [] 5 3 "Acme Cidery" "small" 0
    (by simp)

/-- C2: evaluation of `handleCreateBatch` of the cited `Dashboard`
variant at the failing inputs. Volume -5 and volume 0 pass its
finiteness-only guard, so the insert is sent, and the `batches` table's
`DECIMAL(10,2)` column accepts -5 with no positivity CHECK; volume 12.5
succeeds as claimed. The zod `batchSchema` rule of the other `Dashboard`
variant in the same file — the behaviour the claim describes — rejects
-5 and 0 and accepts 12.5. -/
theorem create_batch_accepts_nonpositive_volume :
    (∃ p, handleCreateBatch (some 7) (some 1)
        { name := "Batch", variety := "Granny", volume := some (-5),
          start_date := "2025-01-01" } = some p ∧
      p.volume = -5 ∧ batchesVolumeColumnAccepts p.volume = true) ∧
    (∃ p, handleCreateBatch (some 7) (some 1)
        { name := "Batch", variety := "Granny", volume := some 0,
          start_date := "2025-01-01" } = some p ∧ p.volume = 0) ∧
    (∃ p, handleCreateBatch (some 7) (some 1)
        { name := "Batch", variety := "Granny", volume := some (25 / 2),
          start_date := "2025-01-01" } = some p ∧ p.volume = 25 / 2 ∧
      p.current_stage = .pressing) ∧
    batchSchemaAcceptsVolume (-5) = false ∧
    batchSchemaAcceptsVolume 0 = false ∧
    batchSchemaAcceptsVolume (25 / 2) = true := by
  refine ⟨⟨_, rfl, rfl, ?_⟩, ⟨_, rfl, rfl⟩, ⟨_, rfl, rfl, rfl⟩, ?_, ?_, ?_⟩
  · simp only [batchesVolumeColumnAccepts, Bool.and_eq_true, beq_iff_eq,
      decide_eq_true_eq]
    constructor
    · norm_num
    · norm_num
  · simp only [batchSchemaAcceptsVolume, Bool.and_eq_false_iff,
      decide_eq_false_iff_not]
    left
    norm_num
  · simp only [batchSchemaAcceptsVolume, Bool.and_eq_false_iff,
      decide_eq_false_iff_not]
    left
    norm_num
  · simp only [batchSchemaAcceptsVolume, Bool.and_eq_true, decide_eq_true_eq]
    constructor <;> norm_num

/-- C6 counterexample: a tasting note with sweetness 7 — outside 1-5 —
and a nonempty aroma passes the application boundary unrejected; the
insert is sent carrying the out-of-range score, and it is the store's
CHECK constraint that fails it. -/
theorem tasting_note_out_of_range_score_sent :
    handleAddTastingNote (some 7) (some 1) demoTastingForm
        = some demoTastingInsert ∧
      demoTastingInsert.sweetness = some 7 ∧
      tastingScoreColumnAccepts demoTastingInsert.sweetness = false := by
  refine ⟨?_, rfl, by decide⟩
  decide

/-- C6 amended: sensory scores are forwarded to the insert payload
without any range validation — the boundary gate looks only at the four
text fields — and it is the `tasting_notes` CHECK constraints of the
store that accept exactly the integer scores between 1 and 5. -/
theorem tasting_scores_unchecked_at_boundary :
    ∀ (uid bid : Nat) (f : TastingFormState),
      (∀ p, handleAddTastingNote (some uid) (some bid) f = some p →
        p.sweetness = f.sweetness ∧ p.acidity = f.acidity ∧
          p.body = f.body) ∧
      (handleAddTastingNote (some uid) (some bid) f = none ↔
        (jsFalsyStr (trimToOption f.aroma)
          && jsFalsyStr (trimToOption f.flavor)
          && jsFalsyStr (trimToOption f.finish)
          && jsFalsyStr (trimToOption f.notes)) = true) ∧
      (∀ s : ℚ, tastingScoreColumnAccepts (some s) = true ↔
        s.den = 1 ∧ 1 ≤ s ∧ s ≤ 5) := by
  intro uid bid f
  refine ⟨?_, ?_, ?_⟩
  · intro p hp
    simp only [handleAddTastingNote] at hp
    split at hp
    · exact absurd hp (by simp)
    · rw [Option.some.injEq] at hp
      subst hp
      exact ⟨rfl, rfl, rfl⟩
  · simp only [handleAddTastingNote]
    split
    · simp_all
    · simp_all
  · intro s
    simp [tastingScoreColumnAccepts, and_assoc]

/-- Concrete run of the C6 amended theorem: the payload the boundary
sends for the sample form holds the form's scores unchanged, sweetness 7
included. -/
theorem tasting_scores_unchecked_at_boundary_witness :
    demoTastingInsert.sweetness = demoTastingForm.sweetness ∧
    demoTastingInsert.acidity = demoTastingForm.acidity ∧
    demoTastingInsert.body = demoTastingForm.body := by
  exact (tasting_scores_unchecked_at_boundary 7 1 demoTastingForm).1
    demoTastingInsert (by decide)

/-- C8 counterexample: with six pending schedules in the organization,
the sixth by target date is pending — `completed_at` is null and its
batch is in the organization — yet it is absent from the result of the
`upcoming-packaging` query, because the query ends in `limit(5)`. -/
theorem pending_schedule_dropped_by_limit :
    (demoSchedule 6).completed_at = none ∧
    scheduleInOrg demoBatches (demoSchedule 6) 1 = true ∧
    demoSchedule 6 ∈ demoSchedules ∧
    demoSchedule 6 ∉ upcomingPackagingQuery demoBatches demoSchedules 1 := by
  decide

/-- C8 amended: a pending schedule of the organization is included in
the "upcoming" query whenever at most five rows passing the query's
filter carry a target date at or before its own — it is among the first
five by ascending target date, which is all `limit(5)` keeps; marking it
complete stamps `completed_at` with the current time, after which the
row shows the completion timestamp and is excluded from "upcoming"
unconditionally. -/
theorem upcoming_pending_and_completion :
    ∀ (batches : List BatchRow) (schedules : List PackagingScheduleRow)
      (orgId : Nat) (s : PackagingScheduleRow) (now : Nat),
      s ∈ schedules → s.completed_at = none →
      scheduleInOrg batches s orgId = true →
      (((schedules.filter fun x =>
            x.completed_at.isNone && scheduleInOrg batches x orgId).filter
          fun x => x.target_date ≤ s.target_date).length ≤ 5 →
        s ∈ upcomingPackagingQuery batches schedules orgId) ∧
      (∀ s2 ∈ handleMarkPackagingComplete schedules s.id now,
        s2.id = s.id →
          s2.completed_at = some now ∧
          packagingBadge s2 = .completedAt now) ∧
      (∀ s2 ∈ upcomingPackagingQuery batches
          (handleMarkPackagingComplete schedules s.id now) orgId,
        s2.id ≠ s.id) := by
  intro batches schedules orgId s now hs hnull hin
  have hfilter : s ∈ schedules.filter fun x =>
      x.completed_at.isNone && scheduleInOrg batches x orgId := by
    rw [List.mem_filter]
    exact ⟨hs, by simp [hnull, hin]⟩
  refine ⟨?_, ?_, ?_⟩
  · intro hlen
    unfold upcomingPackagingQuery
    refine mem_take_of_sorted_count_le 5 _ s
      (pairwise_sortByTargetDate _) ?_ ?_
    · rw [mem_sortByTargetDate]
      exact hfilter
    · have hperm := (perm_sortByTargetDate (schedules.filter fun x =>
        x.completed_at.isNone && scheduleInOrg batches x orgId)).filter
          (fun x => decide (x.target_date ≤ s.target_date))
      rw [hperm.length_eq]
      exact hlen
  · intro s2 hs2 hid
    unfold handleMarkPackagingComplete at hs2
    rw [List.mem_map] at hs2
    obtain ⟨x, hx, heq⟩ := hs2
    by_cases hc : x.id = s.id
    · rw [if_pos hc] at heq
      subst heq
      exact ⟨rfl, rfl⟩
    · rw [if_neg hc] at heq
      subst heq
      exact absurd hid hc
  · intro s2 hs2
    unfold upcomingPackagingQuery at hs2
    have hs2' := List.mem_of_mem_take hs2
    rw [mem_sortByTargetDate, List.mem_filter] at hs2'
    obtain ⟨hmem, hcond⟩ := hs2'
    unfold handleMarkPackagingComplete at hmem
    rw [List.mem_map] at hmem
    obtain ⟨x, _hx, heq⟩ := hmem
    by_cases hc : x.id = s.id
    · rw [if_pos hc] at heq
      subst heq
      simp at hcond
    · rw [if_neg hc] at heq
      subst heq
      exact hc

/-- Concrete run of the C8 amended theorem: a single pending schedule is
listed as upcoming, and after marking it complete at time 9 the row
carries and displays the completion timestamp. -/
theorem upcoming_pending_and_completion_witness :
    demoSchedule 1 ∈ upcomingPackagingQuery demoBatches [demoSchedule 1] 1 ∧
    ({ demoSchedule 1 with
        completed_at := some 9 } : PackagingScheduleRow).completed_at
      = some 9 ∧
    packagingBadge { demoSchedule 1 with completed_at := some 9 }
      = .completedAt 9 := by
  have h := upcoming_pending_and_completion demoBatches [demoSchedule 1] 1
    (demoSchedule 1) 9 (by decide) rfl (by decide)
  refine ⟨h.1 (by decide), ?_, ?_⟩
  · exact (h.2.1 { demoSchedule 1 with completed_at := some 9 }
      (by decide) rfl).1
  · exact (h.2.1 { demoSchedule 1 with completed_at := some 9 }
      (by decide) rfl).2

/-- C9 counterexample: an edit through `updateBatchMutation` whose
payload repeats the batch's current name, variety, volume and start date
still changes the row — the `set_batches_updated_at` trigger bumps
`updated_at` — so fields outside the four listed ones do change. -/
theorem batch_edit_changes_updated_at :
    (applyBatchEditRow demoBatchPressing demoEdit 5).updated_at = 5 ∧
    demoBatchPressing.updated_at = 0 ∧
    updateBatchInStore [demoBatchPressing] 1 1 demoEdit 5
      ≠ [demoBatchPressing] := by
  refine ⟨rfl, rfl, ?_⟩
  decide

/-- C9 amended: a batch edit can change only the four client fields plus
the store-maintained `updated_at`; every row of the store after an edit
descends from a stored row with the same id, `current_stage`,
`organization_id`, `created_by` and `created_at`, being either untouched
or rewritten by the edit payload and trigger. Stage remains editable only
through the separate advance operation. -/
theorem batch_edit_preserves_stage_org_creator :
    ∀ (db : List BatchRow) (batchId orgId : Nat) (u : BatchEditUpdates)
      (now : Nat) (row : BatchRow),
      row ∈ updateBatchInStore db batchId orgId u now →
      ∃ old, old ∈ db ∧ row.id = old.id ∧
        row.current_stage = old.current_stage ∧
        row.organization_id = old.organization_id ∧
        row.created_by = old.created_by ∧
        row.created_at = old.created_at ∧
        (row = old ∨ row = applyBatchEditRow old u now) := by
  intro db batchId orgId u now row hmem
  unfold updateBatchInStore at hmem
  rw [List.mem_map] at hmem
  obtain ⟨old, hold, heq⟩ := hmem
  by_cases hc : old.id = batchId ∧ old.organization_id = orgId
  · rw [if_pos hc] at heq
    subst heq
    exact ⟨old, hold, rfl, rfl, rfl, rfl, rfl, Or.inr rfl⟩
  · rw [if_neg hc] at heq
    subst heq
    exact ⟨old, hold, rfl, rfl, rfl, rfl, rfl, Or.inl rfl⟩

/-- Concrete run of the C9 amended theorem: the edited sample row keeps
its stage, organization, creator and creation time. -/
theorem batch_edit_preserves_stage_org_creator_witness :
    ∃ old, old ∈ [demoBatchPressing] ∧
      (applyBatchEditRow demoBatchPressing demoEdit 5).id = old.id ∧
      (applyBatchEditRow demoBatchPressing demoEdit 5).current_stage
        = old.current_stage ∧
      (applyBatchEditRow demoBatchPressing demoEdit 5).organization_id
        = old.organization_id ∧
      (applyBatchEditRow demoBatchPressing demoEdit 5).created_by
        = old.created_by ∧
      (applyBatchEditRow demoBatchPressing demoEdit 5).created_at
        = old.created_at ∧
      (applyBatchEditRow demoBatchPressing demoEdit 5 = old ∨
        applyBatchEditRow demoBatchPressing demoEdit 5
          = applyBatchEditRow old demoEdit 5) := by
  exact batch_edit_preserves_stage_org_creator [demoBatchPressing] 1 1
    demoEdit 5 (applyBatchEditRow demoBatchPressing demoEdit 5) (by decide)

/-- C10: `handleAddFermentationLog` sends no insert when the three
metrics parse to null and the notes are empty; and because the emptiness
check uses JavaScript falsiness on the parsed values, a form whose only
recorded metric equals 0 — each metric empty or zero, notes trimming to
empty — is likewise rejected and never persisted. -/
theorem fermentation_log_zero_metric_rejected :
    ∀ (uid bid : Nat) (f : FermentationFormState),
      ((f.temperature = none ∧ f.specific_gravity = none ∧ f.ph = none ∧
          f.notes = "") →
        handleAddFermentationLog (some uid) (some bid) f = none) ∧
      ((f.temperature = none ∨ f.temperature = some 0) →
        (f.specific_gravity = none ∨ f.specific_gravity = some 0) →
        (f.ph = none ∨ f.ph = some 0) → jsTrim f.notes = "" →
        handleAddFermentationLog (some uid) (some bid) f = none) := by
  intro uid bid f
  have key : (f.temperature = none ∨ f.temperature = some 0) →
      (f.specific_gravity = none ∨ f.specific_gravity = some 0) →
      (f.ph = none ∨ f.ph = some 0) → jsTrim f.notes = "" →
      handleAddFermentationLog (some uid) (some bid) f = none := by
    intro h1 h2 h3 h4
    have hnotes :
        jsFalsyStr (if f.notes = "" then none
          else some (jsTrim f.notes)) = true := by
      by_cases hn : f.notes = ""
      · simp [hn, jsFalsyStr]
      · simp [hn, jsFalsyStr, h4]
    rcases h1 with h1 | h1 <;> rcases h2 with h2 | h2 <;>
      rcases h3 with h3 | h3 <;>
      simp [handleAddFermentationLog, h1, h2, h3, hnotes,
        parseOptionalNumber, jsFalsyNum]
  refine ⟨?_, key⟩
  rintro ⟨h1, h2, h3, h4⟩
  exact key (Or.inl h1) (Or.inl h2) (Or.inl h3) (by simp [h4, jsTrim])

/-- Concrete run of the C10 theorem: a fermentation log recording only a
temperature of 0 is rejected and never sent to the store. -/
theorem fermentation_log_zero_metric_rejected_witness :
    handleAddFermentationLog (some 7) (some 1)
      { recorded_at := "2025-01-03", temperature := some 0,
        specific_gravity := none, ph := none, notes := "" } = none := by
  exact (fermentation_log_zero_metric_rejected 7 1
    { recorded_at := "2025-01-03", temperature := some 0,
      specific_gravity := none, ph := none, notes := "" }).2
    (Or.inr rfl) (Or.inl rfl) (Or.inl rfl) (by decide)

end Ciderflow
